import Mathlib

/-!
Shallow embedding of the plately_ai demand-simulation core
(plately_ai/simulation/customer_agent.py, plately_ai/simulation/simulation_engine.py,
and the spec of the absent plately_ai/simulation/elasticity_calculator.py).

Modelling conventions:
* Python floats are modelled as rationals.  Python's global `random` source is
  modelled as an ambient stream `R : Nat -> Rat` of unit draws together with a
  cursor threaded through every operation that draws; `random.uniform(lo, hi)`
  becomes `uniformDraw lo hi (R cursor)` and advances the cursor by one.
* Python's float `**` operator is an ambient parameter `pw : Rat -> Rat -> Rat`;
  no claim depends on its value.
* Menu-item dictionaries are heap records: the engine carries a `store` (the
  heap, addressed by list index) and the master/working menus are lists of
  addresses, so `list(master)` (a shallow copy sharing the dict references) and
  `[dict(item) for item in master]` (fresh copies) are distinguishable.
* Python dicts keyed by strings are association lists whose keys are kept
  unique by the update function `setPref`; a dict comprehension keyed by item
  names is a map over the deduplicated name list (first occurrence kept, and
  the comprehension value depends only on the key, so last-write-wins agrees).
-/

/-- One unit draw from the ambient random stream mapped into an interval:
models `random.uniform(lo, hi)` where `x` is the unit sample. -/
def uniformDraw (lo hi x : ℚ) : ℚ := lo + (hi - lo) * x

/-- Menu item as seen by a `CustomerAgent`: a Python dict whose keys
`id`, `name`, `price` may each be absent (`item.get(...)` semantics). -/
structure AItem where
  id : Option String
  name : Option String
  price : Option ℚ
  deriving DecidableEq

/-- State of a `CustomerAgent` (customer_agent.py, `__init__`). -/
structure Agent where
  agent_id : String
  budget : ℚ
  price_sensitivity : ℚ
  preferences : List (String × ℚ)
  chosen_items : List AItem
  deriving DecidableEq

/-- Python dict assignment `prefs[k] = v` on an association list with unique
keys: overwrite in place if present, append otherwise. -/
def setPref (prefs : List (String × ℚ)) (k : String) (v : ℚ) : List (String × ℚ) :=
  if (List.lookup k prefs).isSome then
    prefs.map (fun kv => if kv.1 == k then (k, v) else kv)
  else prefs ++ [(k, v)]

/-- `CustomerAgent._calculate_utility` (customer_agent.py lines 41-85):
0 when the agent has no preference entry for the item id (also when the item
has no id at all: `None` is never a preference key); the raw preference when
the price is missing or non-positive; 0 when the stored preference is exactly
0; otherwise `preference / price ** (price_sensitivity * (0.5 + preference))`. -/
def calculate_utility (pw : ℚ → ℚ → ℚ) (a : Agent) (item : AItem) : ℚ :=
  match item.id with
  | none => 0
  | some item_id =>
    match List.lookup item_id a.preferences with
    | none => 0
    | some preference_value =>
      match item.price with
      | none => preference_value
      | some price =>
        if price ≤ 0 then preference_value
        else if preference_value = 0 then 0
        else preference_value / pw price (a.price_sensitivity * (1/2 + preference_value))

/-- The lazy-preference loop at the top of `choose_items` (customer_agent.py
lines 103-106): every menu id missing from the agent's preferences gets a
fresh draw from `uniform(0.05, 0.5)`. -/
def assignFresh (R : ℕ → ℚ) : ℕ → List (String × ℚ) → List String → List (String × ℚ) × ℕ
  | σ, prefs, [] => (prefs, σ)
  | σ, prefs, i :: is =>
    if (List.lookup i prefs).isSome then assignFresh R σ prefs is
    else assignFresh R (σ + 1) (setPref prefs i (uniformDraw (1/20) (1/2) (R σ))) is

/-- Stable insertion of one (item, utility) pair into a list sorted by
strictly descending utility: the new element passes only elements with
strictly smaller utility, as Python's stable `sort(reverse=True)` does. -/
def insertByUtil (x : AItem × ℚ) : List (AItem × ℚ) → List (AItem × ℚ)
  | [] => [x]
  | y :: ys => if y.2 < x.2 then x :: y :: ys else y :: insertByUtil x ys

/-- `potential_choices.sort(key=lambda x: x['utility'], reverse=True)`:
stable sort by descending utility. -/
def sortByUtil : List (AItem × ℚ) → List (AItem × ℚ)
  | [] => []
  | x :: xs => insertByUtil x (sortByUtil xs)

/-- The greedy purchase loop of `choose_items` (customer_agent.py lines
120-129): take the next sorted candidate when fewer than `mx` items are chosen
and its price fits the remaining budget, then stop as soon as `mx` items are
chosen or the remaining budget is ≤ 0.  A candidate without a price cannot
occur here (the affordability filter admits only priced items); it is skipped. -/
def greedyChoose (mx : ℕ) : List (AItem × ℚ) → List AItem → ℚ → List AItem
  | [], chosen, _ => chosen
  | (it, _u) :: rest, chosen, remaining =>
    match it.price with
    | none => greedyChoose mx rest chosen remaining
    | some p =>
      if chosen.length < mx ∧ p ≤ remaining then
        (if mx ≤ chosen.length + 1 ∨ remaining - p ≤ 0 then chosen ++ [it]
         else greedyChoose mx rest (chosen ++ [it]) (remaining - p))
      else
        (if mx ≤ chosen.length ∨ remaining ≤ 0 then chosen
         else greedyChoose mx rest chosen remaining)

/-- `CustomerAgent.choose_items` (customer_agent.py lines 87-131).  Returns
the chosen items, the updated agent (cleared-then-set `chosen_items`, grown
`preferences`) and the advanced random cursor. -/
def choose_items (pw : ℚ → ℚ → ℚ) (R : ℕ → ℚ) (a : Agent) (σ : ℕ)
    (menu : List AItem) (mx : ℕ) : List AItem × Agent × ℕ :=
  let a0 : Agent := { a with chosen_items := [] }
  let remaining := a0.budget
  if menu.isEmpty then ([], a0, σ)
  else
    let ids := menu.filterMap AItem.id
    let pr := assignFresh R σ a0.preferences ids
    let a1 : Agent := { a0 with preferences := pr.1 }
    let potential := menu.filterMap (fun it =>
      match it.price with
      | none => none
      | some p =>
        if p ≤ remaining then
          (if 0 < calculate_utility pw a1 it then some (it, calculate_utility pw a1 it)
           else none)
        else none)
    let sorted := sortByUtil potential
    let chosen := greedyChoose mx sorted [] remaining
    (chosen, { a1 with chosen_items := chosen }, pr.2)

/-- The per-id assignment loop of `generate_random_preferences`
(customer_agent.py lines 37-39): each id gets a draw from `uniform(0.1, 1.0)`. -/
def assignAll (R : ℕ → ℚ) : ℕ → List (String × ℚ) → List String → List (String × ℚ) × ℕ
  | σ, prefs, [] => (prefs, σ)
  | σ, prefs, i :: is => assignAll R (σ + 1) (setPref prefs i (uniformDraw (1/10) 1 (R σ))) is

/-- `CustomerAgent.generate_random_preferences`: a no-op unless the preference
mapping is currently empty. -/
def generate_random_preferences (R : ℕ → ℚ) (σ : ℕ) (prefs : List (String × ℚ))
    (ids : List String) : List (String × ℚ) × ℕ :=
  if prefs.isEmpty then assignAll R σ prefs ids else (prefs, σ)

/-- Validated menu item (a dict carrying all of `id`, `name` and a numeric
`price`), the record type stored in the engine's heap. -/
structure MenuItem where
  id : String
  name : String
  price : ℚ
  deriving DecidableEq

/-- A price value found in a raw input dict: a number, or some non-numeric
Python value (which `isinstance(..., (int, float))` rejects). -/
inductive PyPrice where
  | num : ℚ → PyPrice
  | nonNum : PyPrice
  deriving DecidableEq

/-- Raw input menu item, before validation: any of the three keys may be
absent and the price may be non-numeric. -/
structure RawItem where
  id : Option String
  name : Option String
  price : Option PyPrice
  deriving DecidableEq

/-- `SimulationEngine._validate_menu_items` (simulation_engine.py lines
32-40): every item must carry `id`, `name` and `price`, the price must be
numeric and non-negative; the result is a list of fresh copies.  The first
offending item aborts with an error. -/
def validate_menu_items : List RawItem → Except String (List MenuItem)
  | [] => .ok []
  | it :: rest =>
    match it.id, it.name, it.price with
    | some i, some nm, some (PyPrice.num p) =>
      if p < 0 then .error "invalid price"
      else
        match validate_menu_items rest with
        | .ok xs => .ok ({ id := i, name := nm, price := p } :: xs)
        | .error e => .error e
    | some _, some _, some PyPrice.nonNum => .error "invalid price"
    | _, _, _ => .error "missing field"

/-- One choice record emitted by `run_simulation_step` (simulation_engine.py
lines 94-100). -/
structure Choice where
  agent_id : String
  chosen_item_id : String
  chosen_item_name : String
  item_price_at_purchase : ℚ
  deriving DecidableEq

/-- Aggregated result of `analyze_results`; the two per-item dicts are
association lists keyed by item name. -/
structure AggResult where
  total_revenue : ℚ
  total_items_sold : ℕ
  demand_per_item : List (String × ℕ)
  revenue_per_item : List (String × ℚ)
  deriving DecidableEq

/-- Demand count for one name: size of the pandas group of choices whose
`chosen_item_name` equals `n` (0 when the group is absent). -/
def demandFor (n : String) (cs : List Choice) : ℕ :=
  (cs.filter (fun c => c.chosen_item_name == n)).length

/-- Revenue for one name: summed `item_price_at_purchase` over the group of
choices whose `chosen_item_name` equals `n` (0 when the group is absent). -/
def revenueFor (n : String) (cs : List Choice) : ℚ :=
  ((cs.filter (fun c => c.chosen_item_name == n)).map Choice.item_price_at_purchase).sum

/-- `SimulationEngine.analyze_results` (simulation_engine.py lines 103-136),
parameterized by the values of the current working menu.  The dict
comprehensions keyed by `item['name']` become maps over the deduplicated name
list. -/
def analyze_results (menu : List MenuItem) (cs : List Choice) : AggResult :=
  if cs.isEmpty then
    { total_revenue := 0
    , total_items_sold := 0
    , demand_per_item := (menu.map MenuItem.name).dedup.map (fun n => (n, 0))
    , revenue_per_item := (menu.map MenuItem.name).dedup.map (fun n => (n, 0)) }
  else
    { total_revenue := (cs.map Choice.item_price_at_purchase).sum
    , total_items_sold := cs.length
    , demand_per_item := (menu.map MenuItem.name).dedup.map (fun n => (n, demandFor n cs))
    , revenue_per_item := (menu.map MenuItem.name).dedup.map (fun n => (n, revenueFor n cs)) }

/-- Default record used by out-of-range heap reads; every read performed by
the model is within range for well-formed engines. -/
def defaultItem : MenuItem := { id := "", name := "", price := 0 }

/-- Read the dict at heap address `a`. -/
def storeGet (store : List MenuItem) (a : ℕ) : MenuItem := store.getD a defaultItem

/-- Values of a menu given as a list of heap addresses. -/
def menuVals (store : List MenuItem) (refs : List ℕ) : List MenuItem :=
  refs.map (storeGet store)

/-- `SimulationEngine` state: the heap of menu-item dicts plus the fields set
by `__init__` (simulation_engine.py lines 11-30).  `rng` is the cursor into
the ambient random stream (the hidden state of Python's global `random`). -/
structure Eng where
  store : List MenuItem
  menu_items_master_list : List ℕ
  current_menu_items : List ℕ
  num_agents : ℕ
  agent_budget_range : ℚ × ℚ
  agent_price_sensitivity_range : ℚ × ℚ
  all_item_ids : List String
  agents : List Agent
  rng : ℕ
  deriving DecidableEq

/-- Values of the engine's master menu. -/
def masterVals (e : Eng) : List MenuItem := menuVals e.store e.menu_items_master_list

/-- Values of the engine's current working menu. -/
def workingVals (e : Eng) : List MenuItem := menuVals e.store e.current_menu_items

/-- `SimulationEngine.reset_menu_to_master` (simulation_engine.py lines
74-76): `[dict(item) for item in master]` allocates a fresh copy of every
master record and repoints the working menu at the fresh addresses. -/
def reset_menu_to_master (e : Eng) : Eng :=
  { e with store := e.store ++ menuVals e.store e.menu_items_master_list
         , current_menu_items :=
             (List.range (menuVals e.store e.menu_items_master_list).length).map
               (fun i => e.store.length + i) }

/-- `SimulationEngine.update_menu_item_price` (simulation_engine.py lines
54-72): reject a negative price (the same early `return False` also rejects a
non-numeric price); otherwise set the price field of the first working-menu
record whose id matches, in place on the heap. -/
def update_menu_item_price (e : Eng) (iid : String) (np : ℚ) : Eng × Bool :=
  if np < 0 then (e, false)
  else
    match e.current_menu_items.find? (fun a => (storeGet e.store a).id == iid) with
    | none => (e, false)
    | some a =>
      ({ e with store := e.store.set a { storeGet e.store a with price := np } }, true)

/-- View of a heap menu record through the agent's dict accessors. -/
def toAItem (it : MenuItem) : AItem :=
  { id := some it.id, name := some it.name, price := some it.price }

/-- Choice record built from one chosen item (simulation_engine.py lines
95-100); the `getD` defaults are unreachable because engine menu items always
carry all three fields. -/
def mkChoice (aid : String) (it : AItem) : Choice :=
  { agent_id := aid
  , chosen_item_id := it.id.getD ""
  , chosen_item_name := it.name.getD ""
  , item_price_at_purchase := it.price.getD 0 }

/-- The agent loop of `run_simulation_step`: re-roll each agent's budget from
the shared random stream, clear its choices, and run `choose_items` against
the working menu, collecting the choice records agent-major. -/
def agentStep (pw : ℚ → ℚ → ℚ) (R : ℕ → ℚ) (br : ℚ × ℚ) (menu : List AItem) (mi : ℕ) :
    List Agent → ℕ → List Agent × ℕ × List Choice
  | [], σ => ([], σ, [])
  | ag :: rest, σ =>
    let budget := uniformDraw br.1 br.2 (R σ)
    let ag1 : Agent := { ag with budget := budget, chosen_items := [] }
    let r := choose_items pw R ag1 (σ + 1) menu mi
    let myChoices := r.1.map (mkChoice ag1.agent_id)
    let restr := agentStep pw R br menu mi rest r.2.2
    (r.2.1 :: restr.1, restr.2.1, myChoices ++ restr.2.2)

/-- `SimulationEngine.run_simulation_step` (simulation_engine.py lines
79-101): pure side effect on the agents and the random cursor; the heap and
both menus are untouched. -/
def run_simulation_step (pw : ℚ → ℚ → ℚ) (R : ℕ → ℚ) (e : Eng) (mi : ℕ) :
    Eng × List Choice :=
  let menu := (workingVals e).map toAItem
  let r := agentStep pw R e.agent_budget_range menu mi e.agents e.rng
  ({ e with agents := r.1, rng := r.2.1 }, r.2.2)

/-- `SimulationEngine.run_price_scenario` (simulation_engine.py lines
138-158): reset to master, apply the price update, fail closed with another
reset when the update is rejected; otherwise run one step, aggregate against
the working menu, reset, and return the aggregation. -/
def run_price_scenario (pw : ℚ → ℚ → ℚ) (R : ℕ → ℚ) (e : Eng) (iid : String)
    (np : ℚ) (mi : ℕ) : Eng × Option AggResult :=
  let e1 := reset_menu_to_master e
  let r := update_menu_item_price e1 iid np
  if r.2 = false then (reset_menu_to_master r.1, none)
  else
    let s := run_simulation_step pw R r.1 mi
    (reset_menu_to_master s.1, some (analyze_results (workingVals s.1) s.2))

/-- Round half to even, as Python's `round` does on an exactly representable
value. -/
def roundHalfEven (x : ℚ) : ℤ :=
  if x - Rat.floor x < 1/2 then Rat.floor x
  else if (1 : ℚ)/2 < x - Rat.floor x then Rat.floor x + 1
  else if Rat.floor x % 2 = 0 then Rat.floor x else Rat.floor x + 1

/-- `round(x, 2)`: round to two decimal places. -/
def round2 (x : ℚ) : ℚ := (roundHalfEven (x * 100) : ℚ) / 100

/-- Result dict of `run_xed_simulation_set` (simulation_engine.py lines
270-280). -/
structure XEDResult where
  target_item_name : String
  target_item_id : String
  affecting_item_name : String
  affecting_item_id : String
  q_target_base : ℕ
  q_target_scenario : ℕ
  p_affecting_base : ℚ
  p_affecting_scenario : ℚ
  percentage_change_p_affecting : ℚ
  deriving DecidableEq

/-- `SimulationEngine.run_xed_simulation_set` (simulation_engine.py lines
214-280).  Note the order of operations in the source: the baseline
simulation runs before the scenario price is computed and checked for
negativity. -/
def run_xed_simulation_set (pw : ℚ → ℚ → ℚ) (R : ℕ → ℚ) (e : Eng)
    (tid aid : String) (pct : ℚ) (mi : ℕ) : Eng × Option XEDResult :=
  match (masterVals e).find? (fun it => it.id == tid) with
  | none => (e, none)
  | some target =>
    match (masterVals e).find? (fun it => it.id == aid) with
    | none => (e, none)
    | some affecting =>
      if tid == aid then (e, none)
      else
        let p_base := affecting.price
        let e1 := reset_menu_to_master e
        let s := run_simulation_step pw R e1 mi
        let baseline_analysis := analyze_results (workingVals s.1) s.2
        let q_base := (List.lookup target.name baseline_analysis.demand_per_item).getD 0
        let p_scen := round2 (p_base * (1 + pct))
        if p_scen < 0 then (s.1, none)
        else
          let e3 := reset_menu_to_master s.1
          let r := update_menu_item_price e3 aid p_scen
          if r.2 = false then (r.1, none)
          else
            let s2 := run_simulation_step pw R r.1 mi
            let scen_analysis := analyze_results (workingVals s2.1) s2.2
            let q_scen := (List.lookup target.name scen_analysis.demand_per_item).getD 0
            (reset_menu_to_master s2.1,
             some { target_item_name := target.name
                  , target_item_id := tid
                  , affecting_item_name := affecting.name
                  , affecting_item_id := aid
                  , q_target_base := q_base
                  , q_target_scenario := q_scen
                  , p_affecting_base := p_base
                  , p_affecting_scenario := p_scen
                  , percentage_change_p_affecting := pct })

/-- Zero-padded agent id: `f"agent_{i:03d}"`. -/
def agentName (i : ℕ) : String :=
  let s := toString i
  "agent_" ++ String.mk (List.replicate (3 - s.length) '0') ++ s

/-- The loop body of `SimulationEngine._create_agents` (simulation_engine.py
lines 42-52): per agent, the `price_sensitivity` argument draw happens before
the budget draw inside `CustomerAgent.__init__`, then the preference
generator fills the (empty) preference map. -/
def create_agents_go (R : ℕ → ℚ) (br sr : ℚ × ℚ) (ids : List String) :
    ℕ → ℕ → ℕ → List Agent × ℕ
  | 0, _i, σ => ([], σ)
  | k + 1, i, σ =>
    let sens := uniformDraw sr.1 sr.2 (R σ)
    let budget := uniformDraw br.1 br.2 (R (σ + 1))
    let pr := generate_random_preferences R (σ + 2) [] ids
    let a : Agent :=
      { agent_id := agentName i, budget := budget, price_sensitivity := sens
      , preferences := pr.1, chosen_items := [] }
    let rest := create_agents_go R br sr ids k (i + 1) pr.2
    (a :: rest.1, rest.2)

/-- `SimulationEngine._create_agents`. -/
def create_agents (R : ℕ → ℚ) (n : ℕ) (br sr : ℚ × ℚ) (ids : List String) (σ : ℕ) :
    List Agent × ℕ :=
  create_agents_go R br sr ids n 0 σ

/-- `SimulationEngine.__init__` (simulation_engine.py lines 11-30): validate
the input (each validated item is a fresh copy, laid out as heap addresses
`0..n-1`); `current_menu_items = list(master)` is a shallow copy, so the
working menu initially shares every heap address with the master menu. -/
def SimulationEngine_init (R : ℕ → ℚ) (raw : List RawItem) (num_agents : ℕ)
    (budget_range sens_range : ℚ × ℚ) (σ : ℕ) : Except String Eng :=
  match validate_menu_items raw with
  | .error msg => .error msg
  | .ok master =>
    let all_ids := master.map MenuItem.id
    let ags := create_agents R num_agents budget_range sens_range all_ids σ
    .ok { store := master
        , menu_items_master_list := List.range master.length
        , current_menu_items := List.range master.length
        , num_agents := num_agents
        , agent_budget_range := budget_range
        , agent_price_sensitivity_range := sens_range
        , all_item_ids := all_ids
        , agents := ags.1
        , rng := ags.2 }

/-- True when the construction path raised (a `ValueError` from validation). -/
def exceptFails {α : Type} (x : Except String α) : Bool :=
  match x with
  | .error _ => true
  | .ok _ => false

/-- A raw menu item the validator rejects: a missing field, a non-numeric
price, or a negative price. -/
def badRawB (it : RawItem) : Bool :=
  it.id.isNone || it.name.isNone ||
  (match it.price with
   | none => true
   | some PyPrice.nonNum => true
   | some (PyPrice.num p) => decide (p < 0))

/-- Result type of the arc-elasticity formula: a number, a signed infinity,
or the undefined sentinel (`None`). -/
inductive ArcElasticity where
  | undefined : ArcElasticity
  | posInf : ArcElasticity
  | negInf : ArcElasticity
  | value : ℚ → ArcElasticity
  deriving DecidableEq

/-- Modelled from the spec: `calculate_arc_elasticity` lives in
`plately_ai/simulation/elasticity_calculator.py`, which is imported by the
API routers and exercised by `tests/test_elasticity_calculator.py` but is not
among the sources; the definition follows the case analysis of spec section
4.3: undefined when an average is zero; at equal prices 0 for equal
quantities and a signed infinity otherwise; else the arc formula
`((q2-q1)/avg(q1,q2)) / ((p2-p1)/avg(p1,p2))`. -/
def calculate_arc_elasticity (q1 q2 p1 p2 : ℚ) : ArcElasticity :=
  let avgQ := (q1 + q2) / 2
  let avgP := (p1 + p2) / 2
  if avgQ = 0 ∨ avgP = 0 then ArcElasticity.undefined
  else if p1 = p2 then
    (if q1 = q2 then ArcElasticity.value 0
     else if q1 < q2 then ArcElasticity.posInf else ArcElasticity.negInf)
  else ArcElasticity.value (((q2 - q1) / avgQ) / ((p2 - p1) / avgP))

/-- Well-formedness of an engine: every master-menu address is a live heap
address.  It holds after `__init__` and is preserved by every public
operation. -/
def WFm (e : Eng) : Prop := ∀ a ∈ e.menu_items_master_list, a < e.store.length

/-- Claim C4: `arc_elasticity` satisfies the spec's case analysis — undefined
when an average is zero; exactly 0 at equal prices and equal quantities; a
signed infinity at equal prices and changed quantity; otherwise the arc
formula — and in particular `arc_elasticity(100, 60, 10, 12) = -2.75`. -/
theorem arc_elasticity_cases (q1 q2 p1 p2 : ℚ) :
    (((q1 + q2) / 2 = 0 ∨ (p1 + p2) / 2 = 0) →
      calculate_arc_elasticity q1 q2 p1 p2 = ArcElasticity.undefined) ∧
    ((q1 + q2) / 2 ≠ 0 → (p1 + p2) / 2 ≠ 0 → p1 = p2 → q1 = q2 →
      calculate_arc_elasticity q1 q2 p1 p2 = ArcElasticity.value 0) ∧
    ((q1 + q2) / 2 ≠ 0 → (p1 + p2) / 2 ≠ 0 → p1 = p2 → q1 < q2 →
      calculate_arc_elasticity q1 q2 p1 p2 = ArcElasticity.posInf) ∧
    ((q1 + q2) / 2 ≠ 0 → (p1 + p2) / 2 ≠ 0 → p1 = p2 → q2 < q1 →
      calculate_arc_elasticity q1 q2 p1 p2 = ArcElasticity.negInf) ∧
    ((q1 + q2) / 2 ≠ 0 → (p1 + p2) / 2 ≠ 0 → p1 ≠ p2 →
      calculate_arc_elasticity q1 q2 p1 p2 =
        ArcElasticity.value (((q2 - q1) / ((q1 + q2) / 2)) / ((p2 - p1) / ((p1 + p2) / 2)))) ∧
    calculate_arc_elasticity 100 60 10 12 = ArcElasticity.value (-(11/4)) := by
  refine ⟨?_, ?_, ?_, ?_, ?_, ?_⟩
  · intro h
    simp only [calculate_arc_elasticity]
    rw [if_pos h]
  · intro hq hp hpp hqq
    simp only [calculate_arc_elasticity]
    rw [if_neg (by tauto), if_pos hpp, if_pos hqq]
  · intro hq hp hpp hlt
    simp only [calculate_arc_elasticity]
    rw [if_neg (by tauto), if_pos hpp, if_neg (ne_of_lt hlt), if_pos hlt]
  · intro hq hp hpp hlt
    simp only [calculate_arc_elasticity]
    rw [if_neg (by tauto), if_pos hpp, if_neg (ne_of_gt hlt), if_neg (not_lt.mpr (le_of_lt hlt))]
  · intro hq hp hpp
    simp only [calculate_arc_elasticity]
    rw [if_neg (by tauto), if_neg hpp]
  · simp only [calculate_arc_elasticity]
    norm_num

/-- Witness for C4: the undefined and the perfectly-elastic cases at the
spec's known values. -/
theorem arc_elasticity_cases_witness :
    calculate_arc_elasticity 0 0 10 12 = ArcElasticity.undefined ∧
    calculate_arc_elasticity 100 120 10 10 = ArcElasticity.posInf :=
  ⟨(arc_elasticity_cases 0 0 10 12).1 (by norm_num),
   (arc_elasticity_cases 100 120 10 10).2.2.1 (by norm_num) (by norm_num) rfl (by norm_num)⟩

/-- Claim C5: `compute_utility` returns 0 without a preference entry (also
when the item carries no id) or when the stored preference is exactly 0;
returns the raw preference when the price is missing or non-positive; and
otherwise returns `preference / price ** (price_sensitivity * (0.5 +
preference))`. -/
theorem calculate_utility_cases (pw : ℚ → ℚ → ℚ) (a : Agent) (item : AItem) :
    (item.id = none → calculate_utility pw a item = 0) ∧
    (∀ i, item.id = some i → List.lookup i a.preferences = none →
      calculate_utility pw a item = 0) ∧
    (∀ i, item.id = some i → List.lookup i a.preferences = some 0 →
      calculate_utility pw a item = 0) ∧
    (∀ i pref, item.id = some i → List.lookup i a.preferences = some pref →
      item.price = none → calculate_utility pw a item = pref) ∧
    (∀ i pref p, item.id = some i → List.lookup i a.preferences = some pref →
      item.price = some p → p ≤ 0 → calculate_utility pw a item = pref) ∧
    (∀ i pref p, item.id = some i → List.lookup i a.preferences = some pref →
      pref ≠ 0 → item.price = some p → 0 < p →
      calculate_utility pw a item = pref / pw p (a.price_sensitivity * (1/2 + pref))) := by
  refine ⟨?_, ?_, ?_, ?_, ?_, ?_⟩
  · intro h
    simp [calculate_utility, h]
  · intro i hi hl
    simp [calculate_utility, hi, hl]
  · intro i hi hl
    rcases hp : item.price with _ | p
    · simp [calculate_utility, hi, hl, hp]
    · by_cases hple : p ≤ 0
      · simp [calculate_utility, hi, hl, hp, hple]
      · simp [calculate_utility, hi, hl, hp, hple]
  · intro i pref hi hl hp
    simp [calculate_utility, hi, hl, hp]
  · intro i pref p hi hl hp hple
    simp [calculate_utility, hi, hl, hp, hple]
  · intro i pref p hi hl hpref hp hpos
    simp [calculate_utility, hi, hl, hp, not_le.mpr hpos, hpref]

/-- The ambient power-operator oracle used by concrete witnesses. -/
def pw0 : ℚ → ℚ → ℚ := fun _ _ => 1

/-- The ambient random stream used by concrete witnesses. -/
def R0 : ℕ → ℚ := fun _ => 0

/-- Concrete agent for the C5 witness. -/
def agW : Agent :=
  { agent_id := "w", budget := 10, price_sensitivity := 1/2
  , preferences := [("a", 1/2)], chosen_items := [] }

/-- Concrete item for the C5 witness. -/
def itW : AItem := { id := some "a", name := some "A", price := some 4 }

/-- Witness for C5: the main formula branch at a concrete agent and item. -/
theorem calculate_utility_cases_witness :
    calculate_utility pw0 agW itW = (1/2) / pw0 4 (agW.price_sensitivity * (1/2 + 1/2)) :=
  (calculate_utility_cases pw0 agW itW).2.2.2.2.2 "a" (1/2) 4 rfl (by simp [agW, List.lookup])
    (by norm_num) rfl (by norm_num)

/-- The validator fails exactly when some raw item is missing a field or has
a non-numeric or negative price; duplicate ids are not checked. -/
theorem validate_fails_eq (raw : List RawItem) :
    exceptFails (validate_menu_items raw) = raw.any badRawB := by
  induction raw with
  | nil => rfl
  | cons it rest ih =>
    obtain ⟨oid, onm, opr⟩ := it
    rcases oid with _ | i
    · simp [validate_menu_items, badRawB, exceptFails]
    · rcases onm with _ | nm
      · simp [validate_menu_items, badRawB, exceptFails]
      · rcases opr with _ | pv
        · simp [validate_menu_items, badRawB, exceptFails]
        · rcases pv with p | _
          · by_cases hp : p < 0
            · simp [validate_menu_items, badRawB, exceptFails, hp]
            · cases h : validate_menu_items rest with
              | ok xs =>
                rw [h] at ih
                simp [validate_menu_items, badRawB, exceptFails, hp, h, ← ih]
              | error e =>
                rw [h] at ih
                simp [validate_menu_items, badRawB, exceptFails, hp, h, ← ih]
          · simp [validate_menu_items, badRawB, exceptFails]

/-- Claim C3 (amended): engine construction fails if and only if some item of
the supplied menu is missing one of the fields id, name, price or has a
non-numeric or negative price; duplicate ids are not rejected. -/
theorem engine_init_fails_iff_malformed (R : ℕ → ℚ) (raw : List RawItem) (n : ℕ)
    (br sr : ℚ × ℚ) (σ : ℕ) :
    exceptFails (SimulationEngine_init R raw n br sr σ) = raw.any badRawB := by
  rw [← validate_fails_eq]
  unfold SimulationEngine_init
  cases h : validate_menu_items raw <;> simp [exceptFails, h]

/-- First item of the duplicate-id counterexample menu. -/
def rawDupA : RawItem := { id := some "a", name := some "A", price := some (PyPrice.num 1) }

/-- Second item of the duplicate-id counterexample menu: same id, different
name and price. -/
def rawDupB : RawItem := { id := some "a", name := some "B", price := some (PyPrice.num 2) }

/-- Counterexample to C3 as stated: a menu whose two items share the id "a"
is accepted by engine construction — no ValidationError is raised. -/
theorem duplicate_ids_accepted :
    rawDupA.id = rawDupB.id ∧
    exceptFails (SimulationEngine_init R0 [rawDupA, rawDupB] 0 (0, 0) (0, 0) 0) = false := by
  constructor
  · rfl
  · norm_num [SimulationEngine_init, validate_menu_items, exceptFails, rawDupA, rawDupB,
      create_agents, create_agents_go]

/-- Both branches of `analyze_results` compute the same totals and tables:
the empty-choices branch is the general formula at the empty list. -/
theorem analyze_results_eq (menu : List MenuItem) (cs : List Choice) :
    analyze_results menu cs =
      { total_revenue := (cs.map Choice.item_price_at_purchase).sum
      , total_items_sold := cs.length
      , demand_per_item := (menu.map MenuItem.name).dedup.map (fun n => (n, demandFor n cs))
      , revenue_per_item := (menu.map MenuItem.name).dedup.map (fun n => (n, revenueFor n cs)) } := by
  cases cs with
  | nil => simp [analyze_results, demandFor, revenueFor]
  | cons c cs => simp [analyze_results]

/-- Looking a key up in a table built over that key returns the tabulated
value. -/
theorem lookup_tabulate {β : Type} (f : String → β) (L : List String) (n : String)
    (h : n ∈ L) : List.lookup n (L.map (fun m => (m, f m))) = some (f n) := by
  induction L with
  | nil => cases h
  | cons m L ih =>
    rcases List.mem_cons.mp h with h1 | h1
    · subst h1
      simp [List.lookup]
    · by_cases hnm : n = m
      · subst hnm
        simp [List.lookup]
      · have hb : (n == m) = false := by simp [hnm]
        simp [List.lookup, hb, ih h1]

/-- An indicator sum over a list missing the mark adds up to 0. -/
theorem sum_if_zero {M : Type} [AddCommMonoid M] (x : M) (a : String) (L : List String)
    (h : a ∉ L) : (L.map (fun n => if a = n then x else 0)).sum = 0 := by
  induction L with
  | nil => simp
  | cons m L ih =>
    have h1 : a ≠ m := fun e => h (e ▸ List.mem_cons_self m L)
    have h2 : a ∉ L := fun hm => h (List.mem_cons_of_mem m hm)
    simp [h1, ih h2]

/-- An indicator sum over a duplicate-free list containing the mark once adds
up to the marked value. -/
theorem sum_if_single {M : Type} [AddCommMonoid M] (x : M) (a : String) (L : List String)
    (hnd : L.Nodup) (ha : a ∈ L) :
    (L.map (fun n => if a = n then x else 0)).sum = x := by
  induction L with
  | nil => cases ha
  | cons m L ih =>
    rcases List.mem_cons.mp ha with h | h
    · subst h
      have hx : a ∉ L := (List.nodup_cons.mp hnd).1
      simp [sum_if_zero x a L hx]
    · have hnm : a ≠ m := by
        intro e
        exact (List.nodup_cons.mp hnd).1 (e ▸ h)
      simp [hnm, ih (List.nodup_cons.mp hnd).2 h]

/-- Grouping a choice list by name over a duplicate-free name list that
covers every record partitions it: per-group sums add up to the global sum. -/
theorem bucket_partition {M : Type} [AddCommMonoid M] (f : Choice → M)
    (L : List String) (hnd : L.Nodup) (cs : List Choice)
    (h : ∀ c ∈ cs, c.chosen_item_name ∈ L) :
    (L.map (fun n => ((cs.filter (fun c => c.chosen_item_name == n)).map f).sum)).sum
      = (cs.map f).sum := by
  induction cs with
  | nil => simp
  | cons c cs ih =>
    have hc : c.chosen_item_name ∈ L := h c (List.mem_cons_self c cs)
    have hcs : ∀ x ∈ cs, x.chosen_item_name ∈ L :=
      fun x hx => h x (List.mem_cons_of_mem c hx)
    have step : ∀ n : String,
        (((c :: cs).filter (fun x => x.chosen_item_name == n)).map f).sum
          = (if c.chosen_item_name = n then f c else 0)
            + ((cs.filter (fun x => x.chosen_item_name == n)).map f).sum := by
      intro n
      by_cases hn : c.chosen_item_name = n
      · simp [List.filter_cons, hn]
      · simp [List.filter_cons, hn]
    calc (L.map fun n => (((c :: cs).filter (fun x => x.chosen_item_name == n)).map f).sum).sum
        = (L.map fun n => (if c.chosen_item_name = n then f c else 0)
            + ((cs.filter (fun x => x.chosen_item_name == n)).map f).sum).sum := by
          exact congrArg List.sum (List.map_congr_left (fun n _ => step n))
      _ = (L.map fun n => if c.chosen_item_name = n then f c else 0).sum
            + (L.map fun n => ((cs.filter (fun x => x.chosen_item_name == n)).map f).sum).sum :=
          List.sum_map_add
      _ = f c + (cs.map f).sum := by rw [sum_if_single (f c) _ L hnd hc, ih hcs]
      _ = ((c :: cs).map f).sum := by simp

/-- The keys of a table built over a key list are that key list. -/
theorem map_fst_tabulate {β : Type} (f : String → β) (L : List String) :
    (L.map (fun n => (n, f n))).map Prod.fst = L := by
  induction L with
  | nil => rfl
  | cons m L ih => simp [ih]

/-- The values of a table built over a key list are the tabulated values. -/
theorem map_snd_tabulate {β : Type} (f : String → β) (L : List String) :
    (L.map (fun n => (n, f n))).map Prod.snd = L.map f := by
  induction L with
  | nil => rfl
  | cons m L ih => simp [ih]

/-- Claim C7: for every choice list (including the empty one) the two
per-item tables of `aggregate` are keyed by exactly the (deduplicated) item
names of the supplied working menu, and any name chosen by no record maps to
0 in both. -/
theorem analyze_results_coverage (menu : List MenuItem) (cs : List Choice) :
    ((analyze_results menu cs).demand_per_item.map Prod.fst = (menu.map MenuItem.name).dedup) ∧
    ((analyze_results menu cs).revenue_per_item.map Prod.fst = (menu.map MenuItem.name).dedup) ∧
    (∀ n, n ∈ menu.map MenuItem.name → (∀ c ∈ cs, c.chosen_item_name ≠ n) →
      List.lookup n (analyze_results menu cs).demand_per_item = some 0 ∧
      List.lookup n (analyze_results menu cs).revenue_per_item = some 0) := by
  rw [analyze_results_eq]
  refine ⟨?_, ?_, ?_⟩
  · exact map_fst_tabulate _ _
  · exact map_fst_tabulate _ _
  · intro n hn hno
    have hdedup : n ∈ (menu.map MenuItem.name).dedup := List.mem_dedup.mpr hn
    have hfil : cs.filter (fun c => c.chosen_item_name == n) = [] := by
      rw [List.filter_eq_nil_iff]
      intro c hc
      simpa using hno c hc
    have hzero : demandFor n cs = 0 := by simp [demandFor, hfil]
    have hzero2 : revenueFor n cs = 0 := by simp [revenueFor, hfil]
    constructor
    · rw [lookup_tabulate (fun m => demandFor m cs) _ n hdedup, hzero]
    · rw [lookup_tabulate (fun m => revenueFor m cs) _ n hdedup, hzero2]

/-- Concrete one-item menu shared by aggregation witnesses. -/
def menuW : List MenuItem := [{ id := "a", name := "A", price := 3 }]

/-- Witness for C7: full coverage with zero entries at the empty choice
list over a concrete menu. -/
theorem analyze_results_coverage_witness :
    List.lookup "A" (analyze_results menuW []).demand_per_item = some 0 ∧
    List.lookup "A" (analyze_results menuW []).revenue_per_item = some 0 :=
  (analyze_results_coverage menuW []).2.2 "A" (by decide) (by simp)

/-- A list's length is the sum of ones over it. -/
theorem length_eq_sum_ones (l : List Choice) : l.length = (l.map (fun _ => (1 : ℕ))).sum := by
  induction l with
  | nil => rfl
  | cons c l ih =>
    simp only [List.length_cons, List.map_cons, List.sum_cons]
    rw [ih]
    omega

/-- Claim C8: when every choice record references an item name of the
supplied working menu, the per-item revenue table sums to `total_revenue` and
the per-item demand table sums to `total_items_sold`. -/
theorem analyze_results_totals (menu : List MenuItem) (cs : List Choice)
    (h : ∀ c ∈ cs, c.chosen_item_name ∈ menu.map MenuItem.name) :
    ((analyze_results menu cs).revenue_per_item.map Prod.snd).sum
        = (analyze_results menu cs).total_revenue ∧
    ((analyze_results menu cs).demand_per_item.map Prod.snd).sum
        = (analyze_results menu cs).total_items_sold := by
  rw [analyze_results_eq]
  have hnd := List.nodup_dedup (menu.map MenuItem.name)
  have h2 : ∀ c ∈ cs, c.chosen_item_name ∈ (menu.map MenuItem.name).dedup :=
    fun c hc => List.mem_dedup.mpr (h c hc)
  constructor
  · have hb := bucket_partition Choice.item_price_at_purchase _ hnd cs h2
    rw [map_snd_tabulate]
    simpa [revenueFor] using hb
  · have hb := bucket_partition (fun _ => (1 : ℕ)) _ hnd cs h2
    have hlen : ∀ n, demandFor n cs
        = ((cs.filter (fun c => c.chosen_item_name == n)).map (fun _ => (1 : ℕ))).sum := by
      intro n
      rw [demandFor, length_eq_sum_ones]
    rw [map_snd_tabulate]
    calc ((menu.map MenuItem.name).dedup.map (fun n => demandFor n cs)).sum
        = ((menu.map MenuItem.name).dedup.map (fun n =>
            ((cs.filter (fun c => c.chosen_item_name == n)).map (fun _ => (1 : ℕ))).sum)).sum := by
          exact congrArg List.sum (List.map_congr_left (fun n _ => hlen n))
      _ = (cs.map (fun _ => (1 : ℕ))).sum := hb
      _ = cs.length := (length_eq_sum_ones cs).symm

/-- Concrete choice list for the C8 witness. -/
def csW : List Choice :=
  [{ agent_id := "g", chosen_item_id := "a", chosen_item_name := "A", item_price_at_purchase := 3 }]

/-- Witness for C8: the totals agree on a concrete menu and choice list. -/
theorem analyze_results_totals_witness :
    ((analyze_results menuW csW).revenue_per_item.map Prod.snd).sum
        = (analyze_results menuW csW).total_revenue ∧
    ((analyze_results menuW csW).demand_per_item.map Prod.snd).sum
        = (analyze_results menuW csW).total_items_sold :=
  analyze_results_totals menuW csW (by simp [menuW, csW])

/-- The greedy purchase loop keeps the basket within the item-count bound and
never spends more than the remaining budget it started with. -/
theorem greedyChoose_le (mx : ℕ) (l : List (AItem × ℚ)) :
    ∀ (chosen : List AItem) (remaining : ℚ), 0 ≤ remaining → chosen.length ≤ mx →
    (greedyChoose mx l chosen remaining).length ≤ mx ∧
    ((greedyChoose mx l chosen remaining).map (fun it => it.price.getD 0)).sum
      ≤ (chosen.map (fun it => it.price.getD 0)).sum + remaining := by
  induction l with
  | nil =>
    intro chosen remaining hr hlen
    refine ⟨by simpa [greedyChoose] using hlen, ?_⟩
    simp only [greedyChoose]
    linarith
  | cons x rest ih =>
    intro chosen remaining hr hlen
    obtain ⟨it, u⟩ := x
    rcases hp : it.price with _ | p
    · simpa [greedyChoose, hp] using ih chosen remaining hr hlen
    · by_cases hcond : chosen.length < mx ∧ p ≤ remaining
      · by_cases hstop : mx ≤ chosen.length + 1 ∨ remaining - p ≤ 0
        · have h1 := hcond.1
          have h2 := hcond.2
          constructor
          · simp only [greedyChoose, hp, if_pos hcond, if_pos hstop, List.length_append,
              List.length_cons, List.length_nil]
            omega
          · simp only [greedyChoose, hp, if_pos hcond, if_pos hstop, List.map_append,
              List.sum_append, List.map_cons, List.map_nil, List.sum_cons, List.sum_nil,
              Option.getD_some]
            linarith
        · have h1 := hcond.1
          have h2 := hcond.2
          have hns := not_or.mp hstop
          have hr2 : 0 ≤ remaining - p := le_of_lt (by linarith [not_le.mp hns.2])
          have hlen2 : (chosen ++ [it]).length ≤ mx := by
            simp only [List.length_append, List.length_cons, List.length_nil]
            omega
          have hrec := ih (chosen ++ [it]) (remaining - p) hr2 hlen2
          constructor
          · simp only [greedyChoose, hp]
            rw [if_pos hcond, if_neg hstop]
            exact hrec.1
          · have hsum := hrec.2
            simp only [List.map_append, List.sum_append, List.map_cons, List.map_nil,
              List.sum_cons, List.sum_nil, hp, Option.getD_some] at hsum
            simp only [greedyChoose, hp, if_pos hcond, if_neg hstop]
            linarith
      · by_cases hstop : mx ≤ chosen.length ∨ remaining ≤ 0
        · refine ⟨by simpa [greedyChoose, hp, if_neg hcond, if_pos hstop] using hlen, ?_⟩
          simp only [greedyChoose, hp, if_neg hcond, if_pos hstop]
          linarith
        · have hrec := ih chosen remaining hr hlen
          exact ⟨by simpa [greedyChoose, hp, if_neg hcond, if_neg hstop] using hrec.1,
                 by simpa [greedyChoose, hp, if_neg hcond, if_neg hstop] using hrec.2⟩

/-- Claim C6: for every agent with a (data-model) non-negative budget, every
menu of priced non-negative items and every bound, `choose_items` returns at
most `mx` items whose prices sum to at most the agent's budget at call time. -/
theorem choose_items_bounds (pw : ℚ → ℚ → ℚ) (R : ℕ → ℚ) (a : Agent) (σ : ℕ)
    (menu : List AItem) (mx : ℕ)
    (hprices : ∀ it ∈ menu, it.price ≠ none ∧ 0 ≤ it.price.getD 0)
    (hbudget : 0 ≤ a.budget) :
    (choose_items pw R a σ menu mx).1.length ≤ mx ∧
    ((choose_items pw R a σ menu mx).1.map (fun it => it.price.getD 0)).sum ≤ a.budget := by
  by_cases hm : menu.isEmpty
  · constructor
    · simp [choose_items, hm]
    · simp [choose_items, hm]
      exact hbudget
  · have h := greedyChoose_le mx
      (sortByUtil ((fun remaining a1 => menu.filterMap (fun it =>
        match it.price with
        | none => none
        | some p =>
          if p ≤ remaining then
            (if 0 < calculate_utility pw a1 it then some (it, calculate_utility pw a1 it)
             else none)
          else none))
        a.budget
        { a with chosen_items := []
               , preferences := (assignFresh R σ a.preferences (menu.filterMap AItem.id)).1 }))
      [] a.budget hbudget (by simp)
    constructor
    · simpa [choose_items, hm] using h.1
    · simpa [choose_items, hm] using h.2

/-- Concrete agent for the C6 witness. -/
def agC6 : Agent :=
  { agent_id := "c6", budget := 10, price_sensitivity := 0
  , preferences := [("a", 1/2)], chosen_items := [] }

/-- Concrete menu for the C6 witness. -/
def menuC6 : List AItem := [{ id := some "a", name := some "A", price := some 3 }]

/-- Witness for C6: bounds hold at a concrete agent and menu. -/
theorem choose_items_bounds_witness :
    (choose_items pw0 R0 agC6 0 menuC6 2).1.length ≤ 2 ∧
    ((choose_items pw0 R0 agC6 0 menuC6 2).1.map (fun it => it.price.getD 0)).sum ≤ agC6.budget :=
  choose_items_bounds pw0 R0 agC6 0 menuC6 2
    (by
      intro it hit
      simp only [menuC6, List.mem_singleton] at hit
      subst hit
      exact ⟨by simp, by norm_num⟩)
    (by norm_num [agC6])

/-- Reading a live address is unaffected by appending fresh allocations. -/
theorem storeGet_append_of_lt (s t : List MenuItem) (a : ℕ) (h : a < s.length) :
    storeGet (s ++ t) a = storeGet s a := by
  simp [storeGet, List.getD_eq_getElem?_getD, List.getElem?_append, h]

/-- Reading a freshly allocated address returns the appended record. -/
theorem storeGet_append_add (s t : List MenuItem) (a : ℕ) :
    storeGet (s ++ t) (s.length + a) = storeGet t a := by
  simp [storeGet, List.getD_eq_getElem?_getD,
    List.getElem?_append_right (Nat.le_add_right s.length a)]

/-- Writing one address leaves every other address unchanged. -/
theorem storeGet_set_ne (s : List MenuItem) (a b : ℕ) (v : MenuItem) (h : a ≠ b) :
    storeGet (s.set a v) b = storeGet s b := by
  simp [storeGet, List.getD_eq_getElem?_getD, List.getElem?_set_ne h]

/-- Reading a list back off its own index range reproduces the list. -/
theorem map_range_getD (l : List MenuItem) :
    (List.range l.length).map (fun i => storeGet l i) = l := by
  apply List.ext_getElem
  · simp
  · intro n h1 h2
    simp only [List.getElem_map, List.getElem_range]
    rw [storeGet, List.getD_eq_getElem l defaultItem h2]

/-- Reset keeps the master address list. -/
theorem reset_master_list (e : Eng) :
    (reset_menu_to_master e).menu_items_master_list = e.menu_items_master_list := rfl

/-- Reset leaves the values of the master menu unchanged: it only appends
fresh records to the heap. -/
theorem masterVals_reset (e : Eng) (h : WFm e) :
    masterVals (reset_menu_to_master e) = masterVals e := by
  unfold masterVals menuVals reset_menu_to_master
  apply List.map_congr_left
  intro a ha
  exact storeGet_append_of_lt _ _ a (h a ha)

/-- After reset the working menu reads back exactly the master values. -/
theorem workingVals_reset (e : Eng) :
    workingVals (reset_menu_to_master e) = masterVals e := by
  calc workingVals (reset_menu_to_master e)
      = (List.range (menuVals e.store e.menu_items_master_list).length).map
          (fun i => storeGet (e.store ++ menuVals e.store e.menu_items_master_list)
            (e.store.length + i)) := by
        simp [workingVals, reset_menu_to_master, menuVals, List.map_map, Function.comp_def]
    _ = (List.range (menuVals e.store e.menu_items_master_list).length).map
          (fun i => storeGet (menuVals e.store e.menu_items_master_list) i) :=
        List.map_congr_left (fun i _ => storeGet_append_add _ _ i)
    _ = menuVals e.store e.menu_items_master_list := map_range_getD _
    _ = masterVals e := rfl

/-- Reset preserves well-formedness: the heap only grows. -/
theorem wfm_reset (e : Eng) (h : WFm e) : WFm (reset_menu_to_master e) := by
  intro a ha
  simp only [reset_menu_to_master] at ha ⊢
  have := h a ha
  simp only [List.length_append]
  omega

/-- After reset, no working-menu address aliases a master-menu address: the
fresh copies live strictly above every live master record. -/
theorem reset_unshared (e : Eng) (h : WFm e) :
    ∀ a ∈ (reset_menu_to_master e).current_menu_items,
      a ∉ (reset_menu_to_master e).menu_items_master_list := by
  intro a ha hmem
  simp only [reset_menu_to_master, List.mem_map, List.mem_range] at ha
  obtain ⟨i, _hi, rfl⟩ := ha
  simp only [reset_menu_to_master] at hmem
  have := h _ hmem
  omega

/-- A price update never touches the address lists and keeps the heap size. -/
theorem update_frame (e : Eng) (iid : String) (np : ℚ) :
    ((update_menu_item_price e iid np).1).menu_items_master_list = e.menu_items_master_list ∧
    ((update_menu_item_price e iid np).1).current_menu_items = e.current_menu_items ∧
    ((update_menu_item_price e iid np).1).store.length = e.store.length := by
  unfold update_menu_item_price
  by_cases h : np < 0
  · simp [h]
  · simp only [h, if_false]
    cases hfind : e.current_menu_items.find? (fun a => (storeGet e.store a).id == iid) with
    | none => exact ⟨rfl, rfl, rfl⟩
    | some a => simp [List.length_set]

/-- A price update on an engine whose working menu shares no address with the
master menu leaves every master value unchanged. -/
theorem update_masterVals_of_unshared (e : Eng) (iid : String) (np : ℚ)
    (hd : ∀ a ∈ e.current_menu_items, a ∉ e.menu_items_master_list) :
    masterVals ((update_menu_item_price e iid np).1) = masterVals e := by
  unfold update_menu_item_price
  by_cases h : np < 0
  · simp [h]
  · simp only [h, if_false]
    cases hfind : e.current_menu_items.find? (fun a => (storeGet e.store a).id == iid) with
    | none => rfl
    | some a =>
      have ha : a ∈ e.current_menu_items := List.mem_of_find?_eq_some hfind
      have hna : a ∉ e.menu_items_master_list := hd a ha
      unfold masterVals menuVals
      apply List.map_congr_left
      intro b hb
      refine storeGet_set_ne _ a b _ (fun hab => hna ?_)
      rw [hab]
      exact hb

/-- A price update preserves well-formedness. -/
theorem wfm_update (e : Eng) (iid : String) (np : ℚ) (h : WFm e) :
    WFm ((update_menu_item_price e iid np).1) := by
  intro a ha
  have hf := update_frame e iid np
  rw [hf.1] at ha
  rw [hf.2.2]
  exact h a ha

/-- A simulation step touches only the agents and the random cursor. -/
theorem step_frame (pw : ℚ → ℚ → ℚ) (R : ℕ → ℚ) (e : Eng) (mi : ℕ) :
    ((run_simulation_step pw R e mi).1).store = e.store ∧
    ((run_simulation_step pw R e mi).1).menu_items_master_list = e.menu_items_master_list ∧
    ((run_simulation_step pw R e mi).1).current_menu_items = e.current_menu_items :=
  ⟨rfl, rfl, rfl⟩

/-- Claim C1: `run_price_scenario` leaves the master menu unchanged and the
working menu equal in value to the master menu, on both the success and the
failure path, for every item id and every new price. -/
theorem run_price_scenario_restores_menus (pw : ℚ → ℚ → ℚ) (R : ℕ → ℚ) (e : Eng)
    (iid : String) (np : ℚ) (mi : ℕ) (hwf : WFm e) :
    masterVals ((run_price_scenario pw R e iid np mi).1) = masterVals e ∧
    workingVals ((run_price_scenario pw R e iid np mi).1)
      = masterVals ((run_price_scenario pw R e iid np mi).1) := by
  simp only [run_price_scenario]
  set e1 := reset_menu_to_master e with he1
  have hwf1 : WFm e1 := wfm_reset e hwf
  have hm1 : masterVals e1 = masterVals e := masterVals_reset e hwf
  have hd1 := reset_unshared e hwf
  set r := update_menu_item_price e1 iid np with hr
  have hm2 : masterVals r.1 = masterVals e1 := update_masterVals_of_unshared e1 iid np hd1
  have hwf2 : WFm r.1 := wfm_update e1 iid np hwf1
  by_cases hok : r.2 = false
  · rw [if_pos hok]
    constructor
    · rw [masterVals_reset r.1 hwf2, hm2, hm1]
    · rw [workingVals_reset r.1, masterVals_reset r.1 hwf2]
  · rw [if_neg hok]
    have hwfs : WFm (run_simulation_step pw R r.1 mi).1 := hwf2
    have hms : masterVals (run_simulation_step pw R r.1 mi).1 = masterVals r.1 := rfl
    constructor
    · rw [masterVals_reset _ hwfs, hms, hm2, hm1]
    · rw [workingVals_reset _, masterVals_reset _ hwfs]

/-- A freshly constructed one-item engine (no agents; working menu aliases
the master record at address 0, as `list(master)` does). -/
def engFresh : Eng :=
  { store := [{ id := "a", name := "A", price := 10 }]
  , menu_items_master_list := [0]
  , current_menu_items := [0]
  , num_agents := 0
  , agent_budget_range := (0, 0)
  , agent_price_sensitivity_range := (0, 0)
  , all_item_ids := ["a"]
  , agents := []
  , rng := 0 }

/-- Witness for C1: a concrete scenario call restores both menus. -/
theorem run_price_scenario_restores_menus_witness :
    masterVals ((run_price_scenario pw0 R0 engFresh "a" 5 3).1) = masterVals engFresh ∧
    workingVals ((run_price_scenario pw0 R0 engFresh "a" 5 3).1)
      = masterVals ((run_price_scenario pw0 R0 engFresh "a" 5 3).1) :=
  run_price_scenario_restores_menus pw0 R0 engFresh "a" 5 3 (by unfold WFm; decide)

/-- Claim C10: every `reset_to_master` call rebuilds the working menu from
fresh per-item copies that share no record with the master menu, and any
price update made after a reset leaves every master value intact. -/
theorem reset_unshares_working (e : Eng) (hwf : WFm e) :
    (∀ a ∈ (reset_menu_to_master e).current_menu_items,
        a ∉ (reset_menu_to_master e).menu_items_master_list) ∧
    (∀ iid np, masterVals ((update_menu_item_price (reset_menu_to_master e) iid np).1)
        = masterVals (reset_menu_to_master e)) :=
  ⟨reset_unshared e hwf, fun iid np =>
    update_masterVals_of_unshared (reset_menu_to_master e) iid np (reset_unshared e hwf)⟩

/-- Witness for C10: the unsharing and master-preservation hold on a concrete
engine. -/
theorem reset_unshares_working_witness :
    (∀ a ∈ (reset_menu_to_master engFresh).current_menu_items,
        a ∉ (reset_menu_to_master engFresh).menu_items_master_list) ∧
    (∀ iid np, masterVals ((update_menu_item_price (reset_menu_to_master engFresh) iid np).1)
        = masterVals (reset_menu_to_master engFresh)) :=
  reset_unshares_working engFresh (by unfold WFm; decide)

/-- Claim C2 (amended): `update_item_price` leaves every master value intact
on every engine state whose working menu shares no item record with the
master menu — the state every `reset_to_master` establishes. -/
theorem update_price_preserves_master_unshared (e : Eng) (iid : String) (np : ℚ)
    (hd : ∀ a ∈ e.current_menu_items, a ∉ e.menu_items_master_list) :
    masterVals ((update_menu_item_price e iid np).1) = masterVals e :=
  update_masterVals_of_unshared e iid np hd

/-- Two-record engine whose working menu points at a copy (address 1), not at
the master record (address 0). -/
def engSep : Eng :=
  { store := [{ id := "a", name := "A", price := 10 }, { id := "a", name := "A", price := 10 }]
  , menu_items_master_list := [0]
  , current_menu_items := [1]
  , num_agents := 0
  , agent_budget_range := (0, 0)
  , agent_price_sensitivity_range := (0, 0)
  , all_item_ids := ["a"]
  , agents := []
  , rng := 0 }

/-- Witness for C2 (amended): updating the separated engine leaves the master
values unchanged. -/
theorem update_price_preserves_master_unshared_witness :
    masterVals ((update_menu_item_price engSep "a" 5).1) = masterVals engSep :=
  update_price_preserves_master_unshared engSep "a" 5 (by decide)

/-- Raw input of the one-item menu used by the C2 counterexample. -/
def rawFreshA : RawItem := { id := some "a", name := some "A", price := some (PyPrice.num 10) }

/-- Counterexample to C2 as stated: on the engine exactly as `__init__`
builds it (before any reset), a successful `update_item_price` changes the
master menu too, because `current_menu_items = list(master)` shares the item
records. -/
theorem update_price_fresh_engine_corrupts_master :
    SimulationEngine_init R0 [rawFreshA] 0 (0, 0) (0, 0) 0 = Except.ok engFresh ∧
    (update_menu_item_price engFresh "a" 5).2 = true ∧
    masterVals ((update_menu_item_price engFresh "a" 5).1) ≠ masterVals engFresh := by
  refine ⟨?_, ?_, ?_⟩
  · norm_num [SimulationEngine_init, validate_menu_items, create_agents, create_agents_go,
      rawFreshA, engFresh, List.range_succ]
  · norm_num [update_menu_item_price, engFresh, storeGet, List.find?]
  · norm_num [update_menu_item_price, engFresh, storeGet, masterVals, menuVals, List.find?]

/-- Rounding an integer to even returns it. -/
theorem roundHalfEven_intCast (x : ℤ) : roundHalfEven ((x : ℚ)) = x := by
  have hf : Rat.floor ((x : ℚ)) = x := by
    rw [show Rat.floor ((x : ℚ)) = ⌊(x : ℚ)⌋ from rfl]
    exact Int.floor_intCast x
  simp only [roundHalfEven, hf]
  rw [if_pos]
  norm_num

/-- Rounding -10 to two decimals returns -10. -/
theorem round2_neg_ten_val : round2 (-10 : ℚ) = -10 := by
  have h : ((-10 : ℚ) * 100) = (((-1000 : ℤ) : ℚ)) := by norm_num
  rw [round2, h, roundHalfEven_intCast]
  norm_num

/-- The scenario price of the C9 counterexample is negative after rounding. -/
theorem round2_neg_ten : round2 (-10 : ℚ) < 0 := by
  rw [round2_neg_ten_val]
  norm_num

/-- Claim C9 (amended): `run_xed_simulation_set` returns null when the target
id is missing from the master menu, when the affecting id is missing, when
the two ids are equal (for any pair of equal ids, present or not), and when
the rounded scenario price is negative; in the first three cases the engine
is returned untouched — no simulation runs — while in the negative-price
case only the null result is guaranteed (the baseline simulation has already
run). -/
theorem run_xed_guard_cases (pw : ℚ → ℚ → ℚ) (R : ℕ → ℚ) (e : Eng)
    (tid aid : String) (pct : ℚ) (mi : ℕ) :
    ((masterVals e).find? (fun it => it.id == tid) = none →
      run_xed_simulation_set pw R e tid aid pct mi = (e, none)) ∧
    ((masterVals e).find? (fun it => it.id == aid) = none →
      run_xed_simulation_set pw R e tid aid pct mi = (e, none)) ∧
    (tid = aid → run_xed_simulation_set pw R e tid aid pct mi = (e, none)) ∧
    (∀ target affecting,
      (masterVals e).find? (fun it => it.id == tid) = some target →
      (masterVals e).find? (fun it => it.id == aid) = some affecting →
      tid ≠ aid → round2 (affecting.price * (1 + pct)) < 0 →
      (run_xed_simulation_set pw R e tid aid pct mi).2 = none) := by
  refine ⟨?_, ?_, ?_, ?_⟩
  · intro h
    simp only [run_xed_simulation_set, h]
  · intro h
    cases ht : (masterVals e).find? (fun it => it.id == tid) with
    | none => simp only [run_xed_simulation_set, ht]
    | some t => simp only [run_xed_simulation_set, ht, h]
  · intro h
    subst h
    cases ht : (masterVals e).find? (fun it => it.id == tid) with
    | none => simp only [run_xed_simulation_set, ht]
    | some t =>
      cases ha : (masterVals e).find? (fun it => it.id == tid) with
      | none => simp [ht] at ha
      | some t2 => simp [run_xed_simulation_set, ht, ha]
  · intro target affecting ht ha hne hneg
    have hb : (tid == aid) = false := beq_eq_false_iff_ne.mpr hne
    simp only [run_xed_simulation_set, ht, ha, hb, Bool.false_eq_true, if_false]
    rw [if_pos hneg]

/-- Witness for C9 (amended): the same-item rejection at a concrete engine
whose master menu contains the id. -/
theorem run_xed_guard_cases_witness :
    run_xed_simulation_set pw0 R0 engFresh "a" "a" (1/10) 3 = (engFresh, none) :=
  (run_xed_guard_cases pw0 R0 engFresh "a" "a" (1/10) 3).2.2.1 rfl

/-- The one agent of the C9 counterexample engine, holding preferences for
both menu ids. -/
def ag9 : Agent :=
  { agent_id := "agent_000", budget := 5, price_sensitivity := 0
  , preferences := [("a", 1/2), ("b", 1/2)], chosen_items := [] }

/-- Concrete two-item, one-agent engine for the C9 counterexample. -/
def eng9 : Eng :=
  { store := [{ id := "a", name := "A", price := 10 }, { id := "b", name := "B", price := 10 }]
  , menu_items_master_list := [0, 1]
  , current_menu_items := [0, 1]
  , num_agents := 1
  , agent_budget_range := (0, 0)
  , agent_price_sensitivity_range := (0, 0)
  , all_item_ids := ["a", "b"]
  , agents := [ag9]
  , rng := 0 }

/-- Counterexample to C9 as stated: at pct = -2 the rounded scenario price is
negative and null is returned, but the call did perform a simulation beyond
its guards — the baseline step has re-rolled the agents off the shared
random stream, advancing the engine's random cursor. -/
theorem run_xed_negative_price_runs_baseline :
    (run_xed_simulation_set pw0 R0 eng9 "a" "b" (-2) 3).2 = none ∧
    (run_xed_simulation_set pw0 R0 eng9 "a" "b" (-2) 3).1.rng ≠ eng9.rng := by
  have hmv : masterVals eng9
      = [{ id := "a", name := "A", price := 10 }, { id := "b", name := "B", price := 10 }] := by
    simp [masterVals, menuVals, eng9, storeGet]
  have hft : (masterVals eng9).find? (fun it => it.id == "a")
      = some { id := "a", name := "A", price := 10 } := by
    rw [hmv]
    simp [List.find?]
  have hfa : (masterVals eng9).find? (fun it => it.id == "b")
      = some { id := "b", name := "B", price := 10 } := by
    rw [hmv]
    simp [List.find?]
  have hne : ¬(("a" : String) = "b") := by decide
  have hcond : round2 (((10 : ℚ)) * (1 + (-2))) < 0 := by
    have h10 : ((10 : ℚ)) * (1 + (-2)) = -10 := by norm_num
    rw [h10]
    exact round2_neg_ten
  have hmain : run_xed_simulation_set pw0 R0 eng9 "a" "b" (-2) 3
      = ((run_simulation_step pw0 R0 (reset_menu_to_master eng9) 3).1, none) := by
    simp only [run_xed_simulation_set, hft, hfa]
    norm_num [hcond, hne]
    intro hge
    rw [round2_neg_ten_val] at hge
    norm_num at hge
  have hrng : (run_simulation_step pw0 R0 (reset_menu_to_master eng9) 3).1.rng = 1 := by
    have hwv : workingVals (reset_menu_to_master eng9) = masterVals eng9 :=
      workingVals_reset eng9
    simp only [run_simulation_step, hwv, hmv]
    simp [agentStep, choose_items, assignFresh, toAItem, reset_menu_to_master, eng9, ag9,
      List.lookup]
  constructor
  · rw [hmain]
  · rw [hmain]
    rw [hrng]
    simp [eng9]
